import Mathlib

/-!
Verification of the visual-delta frame pipeline and hybrid frame–action
synchronization engine of claude-chrome-stream.

The embedding covers the two core components, both translated from the
TypeScript sources:

* `StreamProcessor` (src/StreamProcessor.ts): `compareFrames`, `createFrame`,
  `handleScreencastFrame` and the keep-alive interval callback.  JPEG decoding
  via sharp and the pixelmatch diff are external native libraries; they are
  passed in as explicit function arguments (`decode`, where `none` stands for
  a decode or compute failure caught by the try/catch, and `diffCount` for
  pixelmatch's count of differing pixels).  `Buffer.from(base64Data,
  'base64')` is a bijective re-encoding; the raster payload is modelled by the
  payload string itself.

* `FrameBuffer` (the FrameBuffer.ts source, in src/unnamed/part_006 lines
  827-1168): the frame store with its trim loop, `getLatestFrame`/`getFrame`/
  `getFramesSince`, `registerAction` with its executor interaction and
  per-action `maxWaitMs` timeout, `checkPendingActions`, `waitForStableFrame`
  and `clear`.  Promise resolve/reject pairs are modelled by caller tokens,
  and the values a closure captures (executor result, baseline frame) are
  carried explicitly in the pending-action record.

Timestamps are naturals (milliseconds); percentages are exact rationals.
-/

/-- Frame metadata forwarded with every screencast frame (types.ts,
`FrameMetadata`). -/
structure FrameMetadata where
  deviceScaleFactor : Rat
  pageScaleFactor : Rat
  offsetTop : Rat
  offsetLeft : Rat
  scrollOffsetX : Rat
  scrollOffsetY : Rat
deriving Repr, DecidableEq

/-- A processed screencast frame (types.ts, `ScreencastFrame`). -/
structure ScreencastFrame where
  frameId : Nat
  timestamp : Nat
  data : String
  metadata : FrameMetadata
  hasChange : Bool
  deltaPercent : Rat
deriving Repr, DecidableEq

/-- Result of comparing two frames (types.ts, `FrameComparisonResult`). -/
structure FrameComparisonResult where
  hasChange : Bool
  deltaPercent : Rat
  diffPixelCount : Nat
  totalPixels : Nat
deriving Repr, DecidableEq

/-- The numeric part of `StreamConfig` (types.ts); the fields the embedded
operations read. -/
structure StreamConfig where
  viewportWidth : Nat
  viewportHeight : Nat
  quality : Nat
  everyNthFrame : Nat
  deltaThreshold : Rat
  keepAliveMs : Nat
  maxBufferSize : Nat
deriving Repr, DecidableEq

/-- Metadata attached to a CDP `Page.screencastFrame` event
(StreamProcessor.ts, `CDPScreencastFrameEvent`). -/
structure CDPFrameMetadata where
  offsetTop : Rat
  pageScaleFactor : Rat
  deviceWidth : Nat
  deviceHeight : Nat
  scrollOffsetX : Rat
  scrollOffsetY : Rat
  timestamp : Nat
deriving Repr, DecidableEq

/-- A decoded raw raster, the output of `sharp(...).ensureAlpha().raw()`. -/
structure Raster where
  width : Nat
  height : Nat
  data : List Nat
deriving Repr, DecidableEq

/-- Mutable state of a `StreamProcessor` instance (StreamProcessor.ts,
private fields). -/
structure ProcState where
  frameId : Nat
  lastFrameData : Option String
  lastFrameTime : Nat
  lastSentFrameTime : Nat
  frameCount : Nat
  droppedFrameCount : Nat
  totalDeltaTime : Nat
  pendingFrame : Option ScreencastFrame
deriving Repr, DecidableEq

/-- The fail-safe comparison result `{hasChange: true, deltaPercent: 100,
diffPixelCount: 0, totalPixels: 0}` that StreamProcessor.ts returns on forced
change, missing baseline, dimension mismatch and decode/compute failure. -/
def fullChangeResult : FrameComparisonResult :=
  { hasChange := true, deltaPercent := 100, diffPixelCount := 0, totalPixels := 0 }

/-- `StreamProcessor.compareFrames`: decode both payloads, treat a dimension
mismatch as full change, otherwise count differing pixels and compare the
percentage with `deltaThreshold`; the surrounding try/catch (modelled by the
`none` decode results) converts any failure into `fullChangeResult`, so no
error escapes. -/
def compareFrames (deltaThreshold : Rat) (decode : String → Option Raster)
    (diffCount : Raster → Raster → Nat) (prevBuffer currBuffer : String) :
    FrameComparisonResult :=
  match decode prevBuffer, decode currBuffer with
  | some prevRaw, some currRaw =>
    if prevRaw.width ≠ currRaw.width ∨ prevRaw.height ≠ currRaw.height then
      fullChangeResult
    else
      let totalPixels := prevRaw.width * prevRaw.height
      let diffPixelCount := diffCount prevRaw currRaw
      let deltaPercent : Rat := (diffPixelCount : Rat) / (totalPixels : Rat) * 100
      { hasChange := decide (deltaThreshold ≤ deltaPercent),
        deltaPercent := deltaPercent,
        diffPixelCount := diffPixelCount,
        totalPixels := totalPixels }
  | _, _ => fullChangeResult

/-- `StreamProcessor.createFrame`: bump the monotonic frame id, compare with the
previous captured payload unless the change is forced or no baseline exists,
and unconditionally replace `lastFrameData` with the new payload.  Returns the
updated state together with the produced frame. -/
def createFrame (cfg : StreamConfig) (decode : String → Option Raster)
    (diffCount : Raster → Raster → Nat) (st : ProcState) (base64Data : String)
    (metadata : CDPFrameMetadata) (now : Nat) (forceChange : Bool) :
    ProcState × ScreencastFrame :=
  let frameId := st.frameId + 1
  let buffer := base64Data
  let comparison : FrameComparisonResult :=
    match forceChange, st.lastFrameData with
    | true, _ => fullChangeResult
    | false, none => fullChangeResult
    | false, some last => compareFrames cfg.deltaThreshold decode diffCount last buffer
  let frameMetadata : FrameMetadata :=
    { deviceScaleFactor := 1
      pageScaleFactor := metadata.pageScaleFactor
      offsetTop := metadata.offsetTop
      offsetLeft := 0
      scrollOffsetX := metadata.scrollOffsetX
      scrollOffsetY := metadata.scrollOffsetY }
  ({ st with frameId := frameId, lastFrameData := some buffer },
   { frameId := frameId
     timestamp := now
     data := base64Data
     metadata := frameMetadata
     hasChange := comparison.hasChange
     deltaPercent := comparison.deltaPercent })

/-- `StreamProcessor.handleScreencastFrame`: bump the capture counter, create
the frame, then forward it when it changed or the keep-alive window elapsed,
otherwise count it as dropped.  Returns the new state and the forwarded frame,
if any. -/
def handleScreencastFrame (cfg : StreamConfig) (decode : String → Option Raster)
    (diffCount : Raster → Raster → Nat) (st : ProcState) (base64Data : String)
    (metadata : CDPFrameMetadata) (now : Nat) : ProcState × Option ScreencastFrame :=
  let timeSinceLastFrame := now - st.lastFrameTime
  let st0 := { st with frameCount := st.frameCount + 1, lastFrameTime := now }
  let created := createFrame cfg decode diffCount st0 base64Data metadata now false
  let st1 := created.1
  let frame := created.2
  let timeSinceLastSent := now - st.lastSentFrameTime
  let shouldSend := frame.hasChange || decide (cfg.keepAliveMs ≤ timeSinceLastSent)
  if shouldSend then
    ({ st1 with
        lastSentFrameTime := now
        totalDeltaTime := st1.totalDeltaTime + timeSinceLastFrame
        pendingFrame := some frame }, some frame)
  else
    ({ st1 with droppedFrameCount := st1.droppedFrameCount + 1 }, none)

/-- One firing of the keep-alive interval (`StreamProcessor.startKeepAlive`
callback): when nothing was sent for `keepAliveMs` and a last captured payload
exists, a fresh screenshot (`capturedData`, the result of
`Page.captureScreenshot`) is turned into a forced-change frame via
`captureFrame`/`createFrame` and forwarded. -/
def keepAliveTick (cfg : StreamConfig) (decode : String → Option Raster)
    (diffCount : Raster → Raster → Nat) (st : ProcState) (capturedData : String)
    (now : Nat) : ProcState × Option ScreencastFrame :=
  if cfg.keepAliveMs ≤ now - st.lastSentFrameTime ∧ st.lastFrameData ≠ none then
    let meta : CDPFrameMetadata :=
      { offsetTop := 0
        pageScaleFactor := 1
        deviceWidth := cfg.viewportWidth
        deviceHeight := cfg.viewportHeight
        scrollOffsetX := 0
        scrollOffsetY := 0
        timestamp := now }
    let created := createFrame cfg decode diffCount st capturedData meta now true
    ({ created.1 with lastSentFrameTime := now, pendingFrame := some created.2 },
     some created.2)
  else (st, none)


/-- The Computer-Use action vocabulary (types.ts, `ActionType`); the `type`
action is rendered `type_text`. -/
inductive ActionKind where
  | screenshot
  | left_click
  | right_click
  | middle_click
  | double_click
  | triple_click
  | left_click_drag
  | left_mouse_down
  | left_mouse_up
  | mouse_move
  | type_text
  | key
  | scroll
  | hold_key
  | wait
  | navigate
  | zoom
deriving Repr, DecidableEq

/-- Result of an executed browser action (types.ts, `ActionResult`); the
executed action is recorded by its kind. -/
structure ActionResult where
  success : Bool
  frameId : Nat
  error : Option String
  screenshot : Option String
  timestamp : Nat
  action : ActionKind
deriving Repr, DecidableEq

/-- FrameBuffer configuration (part_006 lines 862-871, `FrameBufferConfig`). -/
structure FrameBufferConfig where
  maxSize : Nat
  stabilityWaitMs : Nat
  maxWaitMs : Nat
  stabilityThreshold : Rat
deriving Repr, DecidableEq

/-- One pending action awaiting its post-action frame (part_006 lines
839-845, `PendingAction`).  `token` stands for the promise resolve/reject
pair; `execResult` and `beforeFrame` are the executor result and baseline
frame that the `registerAction` closures capture for the deadline timeout. -/
structure PendingAction where
  token : Nat
  action : ActionKind
  frameId : Nat
  timestamp : Nat
  execResult : ActionResult
  beforeFrame : ScreencastFrame
deriving Repr, DecidableEq

/-- Result delivered to a `registerAction` caller (part_006 lines 847-860,
`FrameActionResult`).  `beforeFrame` is an `Option` because
`checkPendingActions` passes `getFrame(pending.frameId)!`, which is null once
the reference frame has been evicted. -/
structure FrameActionResult where
  action : ActionKind
  result : ActionResult
  beforeFrame : Option ScreencastFrame
  afterFrame : Option ScreencastFrame
  causedChange : Bool
  latencyMs : Nat
deriving Repr, DecidableEq

/-- State of a FrameBuffer instance (part_006 lines 881-883, the private
fields `frames` and `pendingActions`). -/
structure FBState where
  frames : List ScreencastFrame
  pendingActions : List PendingAction
deriving Repr, DecidableEq

/-- The `while (frames.length > maxSize) frames.shift()` trim loop of
`addFrame` (part_006 lines 897-899): drop the oldest frame while over
capacity. -/
def evictOldest (maxSize : Nat) : List ScreencastFrame → List ScreencastFrame
  | [] => []
  | f :: rest =>
    if maxSize < rest.length + 1 then evictOldest maxSize rest else f :: rest

/-- `FrameBuffer.getLatestFrame` (part_006 lines 911-913). -/
def getLatestFrame (frames : List ScreencastFrame) : Option ScreencastFrame :=
  frames.getLast?

/-- `FrameBuffer.getFrame` (part_006 lines 918-920). -/
def getFrame (frames : List ScreencastFrame) (frameId : Nat) :
    Option ScreencastFrame :=
  frames.find? (fun f => f.frameId == frameId)

/-- The `frames.findIndex(f => f.frameId === frameId)` step of
`getFramesSince` (part_006 line 933): index of the first frame with exactly
the given id, `none` standing for -1. -/
def findFrameIdx (frameId : Nat) : List ScreencastFrame → Option Nat
  | [] => none
  | f :: rest =>
    if f.frameId == frameId then some 0
    else (findFrameIdx frameId rest).map (· + 1)

/-- `FrameBuffer.getFramesSince` (part_006 lines 932-936): find the exact
cutoff id; when it is absent return the empty list, otherwise everything
after it (`slice(index + 1)`). -/
def getFramesSince (frames : List ScreencastFrame) (frameId : Nat) :
    List ScreencastFrame :=
  match findFrameIdx frameId frames with
  | none => []
  | some index => frames.drop (index + 1)

/-- The eligibility test of `checkPendingActions` (part_006 lines 1030-1037):
the frame came after the action's reference frame, and the frame is stable or
the stability wait has elapsed since the action. -/
def eligibleFor (cfg : FrameBufferConfig) (now : Nat) (frame : ScreencastFrame)
    (p : PendingAction) : Bool :=
  decide (p.frameId < frame.frameId) &&
    (decide (frame.deltaPercent ≤ cfg.stabilityThreshold) ||
      decide (cfg.stabilityWaitMs ≤ now - p.timestamp))

/-- `FrameBuffer.checkPendingActions` (part_006 lines 1025-1065): collect the
eligible pending actions in encounter order, remove them, and resolve each
with a fresh success result, `beforeFrame = getFrame(referenceId)`,
`afterFrame = frame`, `causedChange = frame.hasChange`.  Settlements are
returned as (pending action, delivered result) pairs. -/
def checkPendingActions (cfg : FrameBufferConfig) (frames : List ScreencastFrame)
    (pendings : List PendingAction) (now : Nat) (frame : ScreencastFrame) :
    List PendingAction × List (PendingAction × FrameActionResult) :=
  (pendings.filter (fun p => ! eligibleFor cfg now frame p),
   (pendings.filter (eligibleFor cfg now frame)).map (fun p =>
     (p, { action := p.action
           result := { success := true, frameId := frame.frameId, error := none,
                       screenshot := none, timestamp := now, action := p.action }
           beforeFrame := getFrame frames p.frameId
           afterFrame := some frame
           causedChange := frame.hasChange
           latencyMs := now - p.timestamp })))

/-- `FrameBuffer.addFrame` (part_006 lines 893-906): push the frame, trim to
capacity, then check the pending actions against the new frame.  Returns the
new state and the settlements delivered. -/
def addFrame (cfg : FrameBufferConfig) (st : FBState) (now : Nat)
    (frame : ScreencastFrame) :
    FBState × List (PendingAction × FrameActionResult) :=
  let frames := evictOldest cfg.maxSize (st.frames ++ [frame])
  let checked := checkPendingActions cfg frames st.pendingActions now frame
  ({ frames := frames, pendingActions := checked.1 }, checked.2)

/-- The `setTimeout` closure of `registerAction` (part_006 lines 1004-1018)
firing at `now`: if the pending action is still registered, remove it and
resolve with the captured executor result, the current latest frame and
`causedChange = latest.frameId ≠ beforeFrame.frameId`; once the action is
gone (`indexOf === -1`, e.g. after `clear()`), the firing is a no-op. -/
def fireTimeout (st : FBState) (p : PendingAction) (now : Nat) :
    FBState × List (PendingAction × FrameActionResult) :=
  if p ∈ st.pendingActions then
    ({ st with pendingActions := st.pendingActions.erase p },
     [(p, { action := p.action
            result := p.execResult
            beforeFrame := some p.beforeFrame
            afterFrame := getLatestFrame st.frames
            causedChange :=
              match getLatestFrame st.frames with
              | some latest => decide (latest.frameId ≠ p.frameId)
              | none => false
            latencyMs := now - p.timestamp })])
  else (st, [])

/-- `FrameBuffer.clear` (part_006 lines 1144-1147): empty the frame store and
the pending-action table.  No settlement of any kind is produced — the
pending promises are simply forgotten. -/
def clearBuffer (st : FBState) :
    FBState × List (PendingAction × FrameActionResult) :=
  ({ frames := [], pendingActions := [] }, [])

/-- Behavior of the externally supplied `executeAction` as observed by
`registerAction`: it completes at time `t` with a result, throws at time `t`,
or never settles. -/
inductive ExecBehavior where
  | completes (t : Nat) (r : ActionResult)
  | throws (t : Nat) (e : String)
  | never
deriving Repr, DecidableEq

/-- Outcome of a `registerAction` call: the thrown `No frame available`
error, a rejection with the executor's error, an immediate resolution, a
pushed pending action whose `maxWaitMs` timeout was armed at executor
completion, or — for an executor that never settles — no settlement ever:
nothing was pushed and no timer armed. -/
inductive RegOutcome where
  | noFrame
  | rejected (e : String)
  | resolvedNow (r : FrameActionResult)
  | awaiting (p : PendingAction)
  | neverSettles
deriving Repr, DecidableEq

/-- Whether `registerAction` treats the action as non-visual (part_006 line
978): a pure `wait` or a `screenshot`. -/
def isNonVisual : ActionKind → Bool
  | ActionKind.wait => true
  | ActionKind.screenshot => true
  | _ => false

/-- `FrameBuffer.registerAction` (part_006 lines 944-1020).  Baseline check
first (throws `No frame available` when the buffer is empty); then the
executor runs: a throw rejects the promise (line 961); an unsuccessful result
or a non-visual action resolves immediately; otherwise the pending action is
pushed and its `maxWaitMs` timeout armed — both only after the executor
completed, so an executor that never settles leaves nothing behind.  `token`
identifies the caller's promise. -/
def registerAction (st : FBState) (token : Nat) (action : ActionKind)
    (startTime : Nat) (exec : ExecBehavior) : FBState × RegOutcome :=
  match getLatestFrame st.frames with
  | none => (st, RegOutcome.noFrame)
  | some beforeFrame =>
    match exec with
    | ExecBehavior.throws _ e => (st, RegOutcome.rejected e)
    | ExecBehavior.never => (st, RegOutcome.neverSettles)
    | ExecBehavior.completes t r =>
      if r.success = false then
        (st, RegOutcome.resolvedNow
          { action := action, result := r, beforeFrame := some beforeFrame,
            afterFrame := none, causedChange := false,
            latencyMs := t - startTime })
      else if isNonVisual action then
        (st, RegOutcome.resolvedNow
          { action := action, result := r, beforeFrame := some beforeFrame,
            afterFrame := some beforeFrame, causedChange := false,
            latencyMs := t - startTime })
      else
        let p : PendingAction :=
          { token := token, action := action, frameId := beforeFrame.frameId,
            timestamp := startTime, execResult := r, beforeFrame := beforeFrame }
        ({ st with pendingActions := st.pendingActions ++ [p] },
         RegOutcome.awaiting p)

/-- An event serialized onto a FrameBuffer instance: a forwarded frame
arrival, the firing of one pending action's `maxWaitMs` timeout, or
`clear()`. -/
inductive FBEvent where
  | frame (now : Nat) (f : ScreencastFrame)
  | fire (p : PendingAction) (now : Nat)
  | clearEvt
deriving Repr, DecidableEq

/-- One serialized buffer step. -/
def stepFB (cfg : FrameBufferConfig) (st : FBState) :
    FBEvent → FBState × List (PendingAction × FrameActionResult)
  | FBEvent.frame now f => addFrame cfg st now f
  | FBEvent.fire p now => fireTimeout st p now
  | FBEvent.clearEvt => clearBuffer st

/-- Run a list of buffer events, accumulating the delivered settlements. -/
def runFB (cfg : FrameBufferConfig) (st : FBState) :
    List FBEvent → FBState × List (PendingAction × FrameActionResult)
  | [] => (st, [])
  | e :: es =>
    let p := stepFB cfg st e
    let q := runFB cfg p.1 es
    (q.1, p.2 ++ q.2)

/-- Whether the delivered settlements include one for the given caller
token. -/
def settlesFB (outs : List (PendingAction × FrameActionResult)) (token : Nat) :
    Bool :=
  outs.any (fun o => o.1.token == token)

/-- The frames-only effect of a sequence of `addFrame` calls (the timestamp
does not influence the stored frames). -/
def addFrames (cfg : FrameBufferConfig) (st : FBState)
    (fs : List ScreencastFrame) : FBState :=
  fs.foldl (fun s f => (addFrame cfg s 0 f).1) st

/-- Handler state of `waitForStableFrame` (part_006 lines 1110-1111): the
rolling last-change timestamp and the last frame seen. -/
structure StableWait where
  lastChangeTime : Nat
  lastFrame : Option ScreencastFrame
deriving Repr, DecidableEq

/-- The `frame_added` handler of `waitForStableFrame` (part_006 lines
1122-1135): record the frame; when `hasChange && deltaPercent >
stabilityThreshold` reset the timestamp, otherwise resolve with this very
frame once the timestamp is `durationMs` stale.  Returns the new handler
state and the resolution, if any. -/
def stableHandler (stabilityThreshold : Rat) (durationMs : Nat)
    (sw : StableWait) (now : Nat) (frame : ScreencastFrame) :
    StableWait × Option ScreencastFrame :=
  if frame.hasChange = true ∧ stabilityThreshold < frame.deltaPercent then
    ({ lastChangeTime := now, lastFrame := some frame }, none)
  else if durationMs ≤ now - sw.lastChangeTime then
    ({ lastChangeTime := sw.lastChangeTime, lastFrame := some frame }, some frame)
  else
    ({ lastChangeTime := sw.lastChangeTime, lastFrame := some frame }, none)

/-- `FrameBuffer.waitForStableFrame` (part_006 lines 1105-1139) over a
time-ordered list of frame arrivals, with `deadline = callAt + timeout`:
staleness is checked only when a frame arrives; at the deadline the promise
resolves with the last frame seen, or rejects (`none`) when no frame was ever
available.  Returns the settlement time and the resolved frame, if any. -/
def stableWaitRun (stabilityThreshold : Rat) (durationMs deadline : Nat)
    (sw : StableWait) :
    List (Nat × ScreencastFrame) → Nat × Option ScreencastFrame
  | [] => (deadline, sw.lastFrame)
  | (now, f) :: rest =>
    if deadline ≤ now then (deadline, sw.lastFrame)
    else
      match stableHandler stabilityThreshold durationMs sw now f with
      | (_, some frame) => (now, some frame)
      | (sw1, none) => stableWaitRun stabilityThreshold durationMs deadline sw1 rest

/-- Sample frame metadata. -/
def fmA : FrameMetadata := ⟨1, 1, 0, 0, 0, 0⟩

/-- The default stream configuration (types.ts, `DEFAULT_CONFIG`). -/
def cfgA : StreamConfig := ⟨1280, 800, 80, 1, 2, 2000, 10⟩

/-- A decoder standing for sharp when every decode fails. -/
def decNone : String → Option Raster := fun _ => none

/-- A pixel diff standing for pixelmatch reporting no differing pixels. -/
def diffZero : Raster → Raster → Nat := fun _ _ => 0

/-- Sample CDP metadata. -/
def metaA : CDPFrameMetadata := ⟨0, 1, 1280, 800, 0, 0, 0⟩

/-- Sample processor state: five frames captured, baseline payload "A". -/
def procA : ProcState := ⟨5, some "A", 0, 0, 5, 0, 0, none⟩

/-- The default FrameBuffer configuration (part_006 lines 873-878,
`DEFAULT_CONFIG`: maxSize 10, stabilityWaitMs 200, maxWaitMs 2000,
stabilityThreshold 0.5). -/
def cfgB : FrameBufferConfig := ⟨10, 200, 2000, 1/2⟩

/-- A FrameBuffer configuration with maxSize 2, to exercise eviction. -/
def cfgC : FrameBufferConfig := ⟨2, 200, 2000, 1/2⟩

/-- Sample changed frame with id 3. -/
def frameA : ScreencastFrame := ⟨3, 0, "A", fmA, true, 100⟩

/-- Sample unchanged frame, id 4. -/
def frameB : ScreencastFrame := ⟨4, 300, "B", fmA, false, 0⟩

/-- Sample changed frame, id 6. -/
def frameC : ScreencastFrame := ⟨6, 400, "C", fmA, true, 7⟩

/-- Three frames in capture order, ids 3, 4, 6. -/
def fsC : List ScreencastFrame := [frameA, frameB, frameC]

/-- A buffer holding ids 4 and 6 only (no frame with id 5). -/
def bufC : List ScreencastFrame := [frameB, frameC]

/-- A frame whose deltaPercent 5 exceeds the stability threshold while its
`hasChange` flag is false. -/
def frameHot : ScreencastFrame := ⟨8, 500, "H", fmA, false, 5⟩

/-- Sample successful executor result. -/
def resA : ActionResult := ⟨true, 3, none, none, 6, ActionKind.left_click⟩

/-- Sample pending action: token 7, issued at 5 against reference frame 3. -/
def pendA : PendingAction := ⟨7, ActionKind.left_click, 3, 5, resA, frameA⟩

/-- Sample buffer state with one frame and one pending action. -/
def fbA : FBState := ⟨[frameA], [pendA]⟩

/-- Sample buffer state with one frame and no pending action. -/
def fbN : FBState := ⟨[frameA], []⟩

/-- Initial stable-wait handler state of a call at time 0 with no frame yet
seen. -/
def swA : StableWait := ⟨0, none⟩

/-- Eviction trims from the front: `evictOldest m l` is `l` without its first
`l.length - m` elements. -/
theorem evictOldest_eq_drop (m : Nat) (l : List ScreencastFrame) :
    evictOldest m l = l.drop (l.length - m) := by
  induction l with
  | nil => simp [evictOldest]
  | cons f rest ih =>
    simp only [evictOldest, List.length_cons]
    split
    · next h =>
      rw [ih, show rest.length + 1 - m = (rest.length - m) + 1 from by omega,
        List.drop_succ_cons]
    · next h =>
      rw [show rest.length + 1 - m = 0 from by omega, List.drop_zero]

/-- C6 counterexample: at a concrete state whose baseline payload is "A", a
keep-alive forced capture-and-forward of payload "B" at time 2000 emits a
frame and leaves `lastFrameData = some "B" ≠ some "A"` — the previous-raster
state used for the next genuine deltaPercent comparison is not the same after
the keep-alive as it was before, refuting the claim on the code. -/
theorem keepAlive_baseline_not_preserved :
    (keepAliveTick cfgA decNone diffZero procA "B" 2000).1.lastFrameData ≠
      procA.lastFrameData ∧
    (keepAliveTick cfgA decNone diffZero procA "B" 2000).2.isSome = true := by
  decide

/-- C6 (amended): a keep-alive forced capture-and-forward does reset the
change-detection baseline — `createFrame` unconditionally stores the new
payload, so after the keep-alive `lastFrameData` is the keep-alive capture,
and the emitted frame carries `hasChange = true, deltaPercent = 100`. -/
theorem keepAlive_updates_baseline (cfg : StreamConfig)
    (decode : String → Option Raster) (diffCount : Raster → Raster → Nat)
    (st : ProcState) (capturedData : String) (now : Nat)
    (h1 : cfg.keepAliveMs ≤ now - st.lastSentFrameTime)
    (h2 : st.lastFrameData ≠ none) :
    (keepAliveTick cfg decode diffCount st capturedData now).1.lastFrameData =
      some capturedData ∧
    ∃ fr, (keepAliveTick cfg decode diffCount st capturedData now).2 = some fr ∧
      fr.hasChange = true ∧ fr.deltaPercent = 100 := by
  unfold keepAliveTick
  rw [if_pos ⟨h1, h2⟩]
  exact ⟨rfl, _, rfl, rfl, rfl⟩

/-- C6 witness: the amended claim evaluated at the counterexample's input. -/
theorem keepAlive_updates_baseline_witness :
    (keepAliveTick cfgA decNone diffZero procA "B" 2000).1.lastFrameData =
      some "B" ∧
    ∃ fr, (keepAliveTick cfgA decNone diffZero procA "B" 2000).2 = some fr ∧
      fr.hasChange = true ∧ fr.deltaPercent = 100 :=
  keepAlive_updates_baseline cfgA decNone diffZero procA "B" 2000 (by decide)
    (by decide)

/-- Unfolding of `compareFrames` when both payloads decode. -/
theorem compareFrames_decoded (th : Rat) (decode : String → Option Raster)
    (diffCount : Raster → Raster → Nat) (p c : String) (pr cr : Raster)
    (h1 : decode p = some pr) (h2 : decode c = some cr) :
    compareFrames th decode diffCount p c =
      if pr.width ≠ cr.width ∨ pr.height ≠ cr.height then fullChangeResult
      else
        { hasChange :=
            decide (th ≤ (diffCount pr cr : Rat) / ((pr.width * pr.height : Nat) : Rat) * 100)
          deltaPercent := (diffCount pr cr : Rat) / ((pr.width * pr.height : Nat) : Rat) * 100
          diffPixelCount := diffCount pr cr
          totalPixels := pr.width * pr.height } := by
  unfold compareFrames
  rw [h1, h2]

/-- C7: whenever the pixel comparison cannot be performed the produced frame
fails safe.  (1) A decode/compute failure (a `none` decode result, standing
for the try/catch in `compareFrames`) yields `{changed: true, deltaPercent:
100}`; no error is propagated since `compareFrames` is total.  (2) A dimension
mismatch yields the same.  (3) With no previous captured frame, `createFrame`
reports `hasChange = true, deltaPercent = 100` without comparing.  (4) Such a
frame is never silently dropped: when decoding of the incoming payload fails,
`handleScreencastFrame` still forwards the frame. -/
theorem comparison_fail_safe (cfg : StreamConfig)
    (decode : String → Option Raster) (diffCount : Raster → Raster → Nat) :
    (∀ p c, decode p = none ∨ decode c = none →
      compareFrames cfg.deltaThreshold decode diffCount p c = fullChangeResult) ∧
    (∀ p c pr cr, decode p = some pr → decode c = some cr →
      pr.width ≠ cr.width ∨ pr.height ≠ cr.height →
      compareFrames cfg.deltaThreshold decode diffCount p c = fullChangeResult) ∧
    (∀ st data m now, st.lastFrameData = none →
      (createFrame cfg decode diffCount st data m now false).2.hasChange = true ∧
      (createFrame cfg decode diffCount st data m now false).2.deltaPercent = 100) ∧
    (∀ st data m now, decode data = none →
      (handleScreencastFrame cfg decode diffCount st data m now).2.isSome = true) := by
  refine ⟨?_, ?_, ?_, ?_⟩
  · intro p c h
    unfold compareFrames
    cases hp : decode p with
    | none => rfl
    | some pr =>
      cases hc : decode c with
      | none => rfl
      | some cr =>
        rw [hp, hc] at h
        simp at h
  · intro p c pr cr h1 h2 h3
    rw [compareFrames_decoded cfg.deltaThreshold decode diffCount p c pr cr h1 h2,
      if_pos h3]
  · intro st data m now h
    unfold createFrame
    rw [h]
    exact ⟨rfl, rfl⟩
  · intro st data m now h
    have hchange : (createFrame cfg decode diffCount
        { st with frameCount := st.frameCount + 1, lastFrameTime := now }
        data m now false).2.hasChange = true := by
      unfold createFrame
      cases hl : st.lastFrameData with
      | none => rfl
      | some last =>
        show (compareFrames cfg.deltaThreshold decode diffCount last data).hasChange = true
        unfold compareFrames
        cases hp : decode last with
        | none => rfl
        | some pr =>
          rw [h]
          rfl
    unfold handleScreencastFrame
    simp only []
    rw [hchange]
    rfl

/-- C7 witness: the fail-safe conjuncts evaluated with a decoder that always
fails, on the concrete state `procA`. -/
theorem comparison_fail_safe_witness :
    compareFrames cfgA.deltaThreshold decNone diffZero "A" "B" =
      fullChangeResult ∧
    (handleScreencastFrame cfgA decNone diffZero procA "B" metaA 10).2.isSome =
      true :=
  ⟨(comparison_fail_safe cfgA decNone diffZero).1 "A" "B" (Or.inl rfl),
   (comparison_fail_safe cfgA decNone diffZero).2.2.2 procA "B" metaA 10 rfl⟩

/-! Unfolding equations for the buffer operations (their bodies are
`let`-structured; these restate the projections). -/

theorem addFrame_frames_eq (cfg : FrameBufferConfig) (st : FBState) (now : Nat)
    (f : ScreencastFrame) :
    (addFrame cfg st now f).1.frames = evictOldest cfg.maxSize (st.frames ++ [f]) := rfl

theorem addFrame_pending_eq (cfg : FrameBufferConfig) (st : FBState) (now : Nat)
    (f : ScreencastFrame) :
    (addFrame cfg st now f).1.pendingActions =
      st.pendingActions.filter (fun p => ! eligibleFor cfg now f p) := rfl

theorem addFrame_outs_eq (cfg : FrameBufferConfig) (st : FBState) (now : Nat)
    (f : ScreencastFrame) :
    (addFrame cfg st now f).2 =
      (st.pendingActions.filter (eligibleFor cfg now f)).map (fun p =>
        (p, { action := p.action
              result := { success := true, frameId := f.frameId, error := none,
                          screenshot := none, timestamp := now, action := p.action }
              beforeFrame := getFrame (evictOldest cfg.maxSize (st.frames ++ [f]))
                p.frameId
              afterFrame := some f
              causedChange := f.hasChange
              latencyMs := now - p.timestamp })) := rfl

theorem runFB_cons_eq (cfg : FrameBufferConfig) (st : FBState) (e : FBEvent)
    (es : List FBEvent) :
    runFB cfg st (e :: es) =
      ((runFB cfg (stepFB cfg st e).1 es).1,
       (stepFB cfg st e).2 ++ (runFB cfg (stepFB cfg st e).1 es).2) := rfl

/-- The eligibility test, as a proposition. -/
theorem eligibleFor_iff {cfg : FrameBufferConfig} {now : Nat}
    {f : ScreencastFrame} {p : PendingAction} :
    eligibleFor cfg now f p = true ↔
      (p.frameId < f.frameId ∧
        (f.deltaPercent ≤ cfg.stabilityThreshold ∨
          cfg.stabilityWaitMs ≤ now - p.timestamp)) := by
  simp [eligibleFor]

/-- Settlement search distributes over appended settlement lists. -/
theorem settlesFB_append (xs ys : List (PendingAction × FrameActionResult))
    (t : Nat) :
    settlesFB (xs ++ ys) t = (settlesFB xs t || settlesFB ys t) := by
  simp [settlesFB, List.any_append]

/-- A buffer with an empty pending table never delivers a settlement again:
frame arrivals find no eligible action, timeout firings are no-ops, and
`clear()` produces nothing. -/
theorem runFB_no_pending (cfg : FrameBufferConfig) (es : List FBEvent) :
    ∀ st : FBState, st.pendingActions = [] →
      (runFB cfg st es).1.pendingActions = [] ∧ (runFB cfg st es).2 = [] := by
  induction es with
  | nil =>
    intro st h
    exact ⟨h, rfl⟩
  | cons e rest ih =>
    intro st h
    have hstep : (stepFB cfg st e).1.pendingActions = [] ∧ (stepFB cfg st e).2 = [] := by
      cases e with
      | frame now f => simp [stepFB, addFrame, checkPendingActions, h]
      | fire p now => simp [stepFB, fireTimeout, h]
      | clearEvt => exact ⟨rfl, rfl⟩
    obtain ⟨h1, h2⟩ := hstep
    obtain ⟨h3, h4⟩ := ih (stepFB cfg st e).1 h1
    rw [runFB_cons_eq]
    exact ⟨h3, by simp [h2, h4]⟩

/-- C1 counterexample: on the concrete state `fbA`, whose action `pendA` is
pending, `clear()` delivers no settlement at all — in particular no
`Cancelled` one — and afterwards neither the orphaned `maxWaitMs` timeout
firing (a no-op, `indexOf === -1`) nor a later frame delivers anything: the
pending `registerAction` call does not settle at `clear()`, refuting the
claim on the code. -/
theorem clear_no_settlement :
    pendA ∈ fbA.pendingActions ∧
    (clearBuffer fbA).2 = [] ∧
    (runFB cfgB (clearBuffer fbA).1
      [FBEvent.fire pendA 2005, FBEvent.frame 2300 frameB]).2 = [] := by
  decide

/-- C1 (amended): `clear()` empties the frame store and the pending-action
table without settling anything: the clearing step delivers no settlement
(`Cancelled` or otherwise) for the outstanding pending action, and no run of
subsequent events — frame arrivals, the orphaned timeout firings, further
clears — ever delivers one from the cleared state: the waiter is left
unresolved forever. -/
theorem clear_leaves_waiters_unresolved (cfg : FrameBufferConfig) (st : FBState)
    (c : PendingAction) (_hc : c ∈ st.pendingActions) (es : List FBEvent) :
    (clearBuffer st).2 = [] ∧
    (clearBuffer st).1.frames = [] ∧
    (clearBuffer st).1.pendingActions = [] ∧
    (runFB cfg (clearBuffer st).1 es).2 = [] := by
  refine ⟨rfl, rfl, rfl, ?_⟩
  exact (runFB_no_pending cfg es (clearBuffer st).1 rfl).2

/-- C1 witness: the amended claim evaluated at the counterexample's state. -/
theorem clear_leaves_waiters_unresolved_witness :
    (clearBuffer fbA).2 = [] ∧
    (clearBuffer fbA).1.frames = [] ∧
    (clearBuffer fbA).1.pendingActions = [] ∧
    (runFB cfgB (clearBuffer fbA).1 [FBEvent.frame 2300 frameB]).2 = [] :=
  clear_leaves_waiters_unresolved cfgB fbA pendA (by decide)
    [FBEvent.frame 2300 frameB]

/-- C3 counterexample: on the concrete state `fbN` a throwing executor makes
`registerAction` reject with the executor's error — it does not resolve with
a result object, refuting the claim on the code. -/
theorem registerAction_throw_rejects :
    registerAction fbN 7 ActionKind.left_click 5 (ExecBehavior.throws 6 "boom") =
      (fbN, RegOutcome.rejected "boom") := by
  decide

/-- C3 (amended): when the executor throws, `registerAction` rejects with
that error (part_006 line 961); when the executor completes with
`result.success = false`, it resolves with `{action, result, beforeFrame,
afterFrame: null, causedChange: false, latencyMs}` — the failure travels
inside `result`, there is no separate error field.  In both cases the
returned state is the input state: no pending action is created and the
buffer contents are unchanged. -/
theorem registerAction_failure_paths (st : FBState) (token : Nat)
    (a : ActionKind) (startTime : Nat) (bf : ScreencastFrame)
    (hb : getLatestFrame st.frames = some bf) :
    (∀ t e, registerAction st token a startTime (ExecBehavior.throws t e) =
      (st, RegOutcome.rejected e)) ∧
    (∀ t r, r.success = false →
      registerAction st token a startTime (ExecBehavior.completes t r) =
        (st, RegOutcome.resolvedNow
          { action := a, result := r, beforeFrame := some bf,
            afterFrame := none, causedChange := false,
            latencyMs := t - startTime })) := by
  constructor
  · intro t e
    unfold registerAction
    rw [hb]
  · intro t r hr
    unfold registerAction
    rw [hb]
    simp [hr]

/-- C3 witness: the amended failure paths evaluated on `fbN`. -/
theorem registerAction_failure_paths_witness :
    registerAction fbN 7 ActionKind.left_click 5 (ExecBehavior.throws 6 "no") =
      (fbN, RegOutcome.rejected "no") ∧
    registerAction fbN 7 ActionKind.left_click 5
        (ExecBehavior.completes 6 { resA with success := false }) =
      (fbN, RegOutcome.resolvedNow
        { action := ActionKind.left_click,
          result := { resA with success := false },
          beforeFrame := some frameA, afterFrame := none, causedChange := false,
          latencyMs := 6 - 5 }) :=
  ⟨(registerAction_failure_paths fbN 7 ActionKind.left_click 5 frameA rfl).1 6 "no",
   (registerAction_failure_paths fbN 7 ActionKind.left_click 5 frameA rfl).2 6
     { resA with success := false } rfl⟩

/-- C4: a still-pending action is resolved by an incoming frame exactly when
`frame.frameId > pending.frameId` and (`frame.deltaPercent ≤
stabilityThreshold` or `now - pending.timestamp ≥ stabilityWaitMs`); the
delivered result then carries `afterFrame = frame` and `causedChange =
frame.hasChange`, and the action stays pending exactly in the complementary
case (part_006, `checkPendingActions`). -/
theorem addFrame_resolves_iff (cfg : FrameBufferConfig) (st : FBState)
    (now : Nat) (f : ScreencastFrame) (c : PendingAction)
    (hc : c ∈ st.pendingActions) :
    ((∃ r, (c, r) ∈ (addFrame cfg st now f).2 ∧ r.afterFrame = some f ∧
        r.causedChange = f.hasChange) ↔
      (c.frameId < f.frameId ∧
        (f.deltaPercent ≤ cfg.stabilityThreshold ∨
          cfg.stabilityWaitMs ≤ now - c.timestamp))) ∧
    (c ∈ (addFrame cfg st now f).1.pendingActions ↔
      ¬ (c.frameId < f.frameId ∧
        (f.deltaPercent ≤ cfg.stabilityThreshold ∨
          cfg.stabilityWaitMs ≤ now - c.timestamp))) := by
  constructor
  · constructor
    · rintro ⟨r, hr, -, -⟩
      rw [addFrame_outs_eq] at hr
      rcases List.mem_map.1 hr with ⟨d, hd, he⟩
      injection he with h1 h2
      subst h1
      exact eligibleFor_iff.1 (List.mem_filter.1 hd).2
    · intro h
      refine ⟨⟨c.action,
        ⟨true, f.frameId, none, none, now, c.action⟩,
        getFrame (evictOldest cfg.maxSize (st.frames ++ [f])) c.frameId,
        some f, f.hasChange, now - c.timestamp⟩, ?_, rfl, rfl⟩
      rw [addFrame_outs_eq]
      exact List.mem_map_of_mem _ (List.mem_filter.2 ⟨hc, eligibleFor_iff.2 h⟩)
  · rw [addFrame_pending_eq, List.mem_filter, ← eligibleFor_iff]
    simp [hc]

/-- C4 witness: frame id 4 with zero delta resolves the concrete pending
action `pendA` (reference frame 3) at time 300. -/
theorem addFrame_resolves_iff_witness :
    ((∃ r, (pendA, r) ∈ (addFrame cfgB fbA 300 frameB).2 ∧
        r.afterFrame = some frameB ∧ r.causedChange = frameB.hasChange) ↔
      (pendA.frameId < frameB.frameId ∧
        (frameB.deltaPercent ≤ cfgB.stabilityThreshold ∨
          cfgB.stabilityWaitMs ≤ 300 - pendA.timestamp))) ∧
    (pendA ∈ (addFrame cfgB fbA 300 frameB).1.pendingActions ↔
      ¬ (pendA.frameId < frameB.frameId ∧
        (frameB.deltaPercent ≤ cfgB.stabilityThreshold ∨
          cfgB.stabilityWaitMs ≤ 300 - pendA.timestamp))) :=
  addFrame_resolves_iff cfgB fbA 300 frameB pendA (by decide)

/-- Buffer contents after a run of `addFrame` calls: starting from a store
within capacity, the store is always the suffix of everything appended,
truncated in front to `maxSize` — eviction removes oldest first. -/
theorem addFrames_buffer (cfg : FrameBufferConfig) (fs : List ScreencastFrame) :
    ∀ st : FBState, st.frames.length ≤ cfg.maxSize →
    (addFrames cfg st fs).frames =
      (st.frames ++ fs).drop ((st.frames ++ fs).length - cfg.maxSize) := by
  induction fs with
  | nil =>
    intro st h
    simp [addFrames, Nat.sub_eq_zero_of_le h]
  | cons f rest ih =>
    intro st h
    have hstep : (addFrame cfg st 0 f).1.frames =
        (st.frames ++ [f]).drop (st.frames.length + 1 - cfg.maxSize) := by
      rw [addFrame_frames_eq, evictOldest_eq_drop]
      simp [List.length_append]
    have hlen : (addFrame cfg st 0 f).1.frames.length ≤ cfg.maxSize := by
      rw [hstep]
      simp only [List.length_drop, List.length_append, List.length_singleton]
      omega
    have hrec := ih (addFrame cfg st 0 f).1 hlen
    have hunfold : addFrames cfg st (f :: rest) =
        addFrames cfg (addFrame cfg st 0 f).1 rest := by
      simp [addFrames]
    rw [hunfold, hrec, hstep]
    have hle : st.frames.length + 1 - cfg.maxSize ≤ (st.frames ++ [f]).length := by
      simp only [List.length_append, List.length_singleton]
      omega
    rw [← List.drop_append_of_le_length hle, List.drop_drop]
    rw [show (st.frames ++ [f]) ++ rest = st.frames ++ f :: rest from by simp]
    congr 1
    simp only [List.length_drop, List.length_append, List.length_cons,
      List.length_singleton]
    omega

/-- C5: for every sequence of `addFrame` calls starting from an empty buffer,
the final store is exactly the suffix of the appended frames of length at
most `maxSize` (strict FIFO: `shift()` evicts the oldest first, the most
recent are kept), so `length ≤ maxSize` at all times — each time point being
the end state of a prefix of the sequence — and strictly ascending ids are
preserved. -/
theorem buffer_bounded_fifo (cfg : FrameBufferConfig) (fs : List ScreencastFrame) :
    (addFrames cfg ⟨[], []⟩ fs).frames = fs.drop (fs.length - cfg.maxSize) ∧
    (addFrames cfg ⟨[], []⟩ fs).frames.length ≤ cfg.maxSize ∧
    (List.Pairwise (fun a b => a.frameId < b.frameId) fs →
      List.Pairwise (fun a b => a.frameId < b.frameId)
        (addFrames cfg ⟨[], []⟩ fs).frames) := by
  have hb := addFrames_buffer cfg fs ⟨[], []⟩ (by simp)
  simp only [List.nil_append] at hb
  refine ⟨hb, ?_, ?_⟩
  · rw [hb]
    simp only [List.length_drop]
    omega
  · intro hp
    rw [hb]
    exact hp.sublist (List.drop_sublist _ _)

/-- C5 witness: three ascending frames through capacity 2 leave exactly the
last two, in ascending id order. -/
theorem buffer_bounded_fifo_witness :
    (addFrames cfgC ⟨[], []⟩ fsC).frames = fsC.drop (fsC.length - cfgC.maxSize) ∧
    List.Pairwise (fun a b => a.frameId < b.frameId)
      (addFrames cfgC ⟨[], []⟩ fsC).frames :=
  ⟨(buffer_bounded_fifo cfgC fsC).1,
   (buffer_bounded_fifo cfgC fsC).2.2 (by decide)⟩

/-- C9 counterexample: cutoff 5 over the concrete buffer holding ids 4 and 6
only — a frame with id greater than the cutoff is present, yet
`getFramesSince` returns the empty list because no frame with exactly id 5 is
buffered, refuting the claim on the code. -/
theorem framesSince_absent_cutoff_empty :
    getFramesSince bufC 5 = [] ∧ frameC ∈ bufC ∧ 5 < frameC.frameId := by
  decide

/-- C9 (amended): `getFramesSince` looks up the exact cutoff id.  When no
buffered frame has that id (for example after eviction) it returns the empty
list; when one does and the buffer ids are strictly ascending, it returns
exactly the buffered frames with id strictly greater than the cutoff, in
ascending id order. -/
theorem getFramesSince_spec (frames : List ScreencastFrame) (id : Nat) :
    ((∀ f ∈ frames, f.frameId ≠ id) → getFramesSince frames id = []) ∧
    (List.Pairwise (fun a b => a.frameId < b.frameId) frames →
      List.Pairwise (fun a b => a.frameId < b.frameId)
        (getFramesSince frames id)) ∧
    (List.Pairwise (fun a b => a.frameId < b.frameId) frames →
      ∀ g0 ∈ frames, g0.frameId = id →
        ∀ g, g ∈ getFramesSince frames id ↔ g ∈ frames ∧ id < g.frameId) := by
  refine ⟨?_, ?_, ?_⟩
  · intro hab
    have hidx : findFrameIdx id frames = none := by
      induction frames with
      | nil => rfl
      | cons f rest ih =>
        have hf : f.frameId ≠ id := hab f (List.mem_cons_self f rest)
        simp only [findFrameIdx, beq_iff_eq, hf, if_false]
        rw [ih (fun g hg => hab g (List.mem_cons_of_mem f hg))]
        rfl
    simp [getFramesSince, hidx]
  · intro hp
    have hsub : List.Sublist (getFramesSince frames id) frames := by
      unfold getFramesSince
      cases findFrameIdx id frames with
      | none => exact List.nil_sublist frames
      | some index => exact List.drop_sublist _ _
    exact hp.sublist hsub
  · induction frames with
    | nil =>
      intro hp g0 hg0 hid
      cases hg0
    | cons f rest ih =>
      intro hp g0 hg0 hid g
      rw [List.pairwise_cons] at hp
      by_cases hf : f.frameId = id
      · have hres : getFramesSince (f :: rest) id = rest := by
          simp [getFramesSince, findFrameIdx, hf]
        rw [hres]
        constructor
        · intro hg
          exact ⟨List.mem_cons_of_mem f hg, hf ▸ hp.1 g hg⟩
        · rintro ⟨hg, hgt⟩
          rcases List.mem_cons.1 hg with h | h
          · subst h
            rw [hf] at hgt
            exact absurd hgt (lt_irrefl id)
          · exact h
      · have hg0r : g0 ∈ rest := by
          rcases List.mem_cons.1 hg0 with h | h
          · subst h
            exact absurd hid hf
          · exact h
        have hflt : f.frameId < id := hid ▸ hp.1 g0 hg0r
        have hres : getFramesSince (f :: rest) id = getFramesSince rest id := by
          simp only [getFramesSince, findFrameIdx, beq_iff_eq, hf, if_false]
          cases hfi : findFrameIdx id rest with
          | none => rfl
          | some i =>
            simp [List.drop_succ_cons]
        rw [hres, ih hp.2 g0 hg0r hid g]
        constructor
        · rintro ⟨hg, hgt⟩
          exact ⟨List.mem_cons_of_mem f hg, hgt⟩
        · rintro ⟨hg, hgt⟩
          rcases List.mem_cons.1 hg with h | h
          · subst h
            exact absurd hgt (not_lt.2 (le_of_lt hflt))
          · exact ⟨h, hgt⟩

/-- C9 witness: cutoff 5 over ids 4 and 6 yields the empty list; cutoff 4,
present in the ascending buffer of ids 3, 4, 6, yields exactly the frames
with greater ids. -/
theorem getFramesSince_spec_witness :
    getFramesSince bufC 5 = [] ∧
    (frameC ∈ getFramesSince fsC 4 ↔ frameC ∈ fsC ∧ 4 < frameC.frameId) :=
  ⟨(getFramesSince_spec bufC 5).1 (by decide),
   (getFramesSince_spec fsC 4).2.2 (by decide) frameB (by decide) rfl frameC⟩

/-- C8 counterexample: `frameHot` has `deltaPercent` 5 above the threshold 2
but `hasChange = false`; the handler leaves the rolling timestamp at 0
instead of resetting it to the arrival time 100, refuting the claim that the
reset happens for every frame whose `deltaPercent` exceeds the threshold
regardless of any other flag. -/
theorem stable_reset_needs_change_flag :
    frameHot.hasChange = false ∧ (2 : Rat) < frameHot.deltaPercent ∧
    (stableHandler 2 500 ⟨0, none⟩ 100 frameHot).1.lastChangeTime = 0 := by
  refine ⟨rfl, ?_, ?_⟩
  · norm_num [frameHot]
  · simp [stableHandler, frameHot]

/-- C8 (amended): `waitForStableFrame` resets its rolling last-change
timestamp only on frames with `hasChange = true` AND `deltaPercent >
stabilityThreshold`; any other frame leaves the timestamp unchanged and
instead resolves with that very frame exactly when the timestamp is
`durationMs` stale — staleness is checked only on such frame arrivals.  The
wait never outlives the overall deadline, and at the deadline it resolves
with the last frame seen when one exists (rejecting only when no frame was
ever available). -/
theorem waitForStable_code_behavior (th : Rat) (dur deadline : Nat)
    (sw : StableWait) (evs : List (Nat × ScreencastFrame)) :
    (∀ now f, f.hasChange = true → th < f.deltaPercent →
      (stableHandler th dur sw now f).1.lastChangeTime = now ∧
      (stableHandler th dur sw now f).2 = none) ∧
    (∀ now f, f.hasChange = false ∨ f.deltaPercent ≤ th →
      (stableHandler th dur sw now f).1.lastChangeTime = sw.lastChangeTime ∧
      ((stableHandler th dur sw now f).2 = some f ↔
        dur ≤ now - sw.lastChangeTime)) ∧
    (stableWaitRun th dur deadline sw evs).1 ≤ deadline ∧
    (sw.lastFrame.isSome = true →
      (stableWaitRun th dur deadline sw evs).2.isSome = true) := by
  refine ⟨?_, ?_, ?_, ?_⟩
  · intro now f h1 h2
    simp [stableHandler, h1, h2]
  · intro now f h
    have hcond : ¬ (f.hasChange = true ∧ th < f.deltaPercent) := by
      rcases h with h | h
      · simp [h]
      · exact fun hc => absurd hc.2 (not_lt.2 h)
    unfold stableHandler
    rw [if_neg hcond]
    by_cases hd : dur ≤ now - sw.lastChangeTime
    · rw [if_pos hd]
      exact ⟨rfl, by simp [hd]⟩
    · rw [if_neg hd]
      refine ⟨rfl, ?_⟩
      simp [hd]
  · induction evs generalizing sw with
    | nil =>
      exact le_refl _
    | cons e rest ih =>
      obtain ⟨now, f⟩ := e
      unfold stableWaitRun
      split
      · exact le_refl _
      · next hlt =>
        cases hh : stableHandler th dur sw now f with
        | mk sw1 res =>
          cases res with
          | none => exact ih sw1
          | some frame => exact le_of_lt (lt_of_not_le hlt)
  · induction evs generalizing sw with
    | nil =>
      intro h
      exact h
    | cons e rest ih =>
      intro h
      obtain ⟨now, f⟩ := e
      unfold stableWaitRun
      split
      · exact h
      · cases hh : stableHandler th dur sw now f with
        | mk sw1 res =>
          cases res with
          | none =>
            refine ih sw1 ?_
            have : sw1.lastFrame = some f := by
              unfold stableHandler at hh
              split at hh
              · cases hh
                rfl
              · split at hh
                · cases hh
                · cases hh
                  rfl
            rw [this]
            rfl
          | some frame => rfl

/-- C8 witness: the unchanged frame `frameB` at time 700 (timestamp stale by
700 ≥ 500 ms) keeps the timestamp and resolves; the hot-but-flagless frame in
the counterexample is covered by the same second conjunct. -/
theorem waitForStable_code_behavior_witness :
    ((stableHandler 2 500 swA 700 frameB).1.lastChangeTime = swA.lastChangeTime ∧
      ((stableHandler 2 500 swA 700 frameB).2 = some frameB ↔ 500 ≤ 700 - swA.lastChangeTime)) ∧
    (stableWaitRun 2 500 5000 swA [(700, frameB)]).1 ≤ 5000 :=
  ⟨(waitForStable_code_behavior 2 500 5000 swA [(700, frameB)]).2.1 700 frameB
      (Or.inl rfl),
   (waitForStable_code_behavior 2 500 5000 swA [(700, frameB)]).2.2.1⟩

/-- A pending action still registered when its timeout fires is settled by
that firing. -/
theorem fire_settles (st : FBState) (now : Nat) (c : PendingAction)
    (hc : c ∈ st.pendingActions) :
    settlesFB (fireTimeout st c now).2 c.token = true := by
  unfold fireTimeout
  rw [if_pos hc]
  simp [settlesFB]

/-- Over one clear-free buffer step, a pending action either stays pending or
is settled by that step's deliveries. -/
theorem fb_step_pending_or_settled (cfg : FrameBufferConfig) (st : FBState)
    (e : FBEvent) (c : PendingAction) (hc : c ∈ st.pendingActions)
    (hne : e ≠ FBEvent.clearEvt) :
    c ∈ (stepFB cfg st e).1.pendingActions ∨
      settlesFB (stepFB cfg st e).2 c.token = true := by
  cases e with
  | frame now f =>
    by_cases h : eligibleFor cfg now f c
    · right
      show settlesFB (addFrame cfg st now f).2 c.token = true
      rw [addFrame_outs_eq]
      unfold settlesFB
      rw [List.any_eq_true]
      refine ⟨_, List.mem_map_of_mem _ (List.mem_filter.2 ⟨hc, h⟩), ?_⟩
      simp
    · left
      show c ∈ (addFrame cfg st now f).1.pendingActions
      rw [addFrame_pending_eq]
      exact List.mem_filter.2 ⟨hc, by simp [h]⟩
  | fire p now =>
    by_cases hp : p ∈ st.pendingActions
    · by_cases hcp : c = p
      · right
        subst hcp
        exact fire_settles st now c hc
      · left
        show c ∈ (fireTimeout st p now).1.pendingActions
        unfold fireTimeout
        rw [if_pos hp]
        exact (List.mem_erase_of_ne hcp).2 hc
    · left
      show c ∈ (fireTimeout st p now).1.pendingActions
      unfold fireTimeout
      rw [if_neg hp]
      exact hc
  | clearEvt => exact absurd rfl hne

/-- Over any clear-free run of buffer events, a pending action either remains
pending at the end or is settled by some step of the run. -/
theorem fb_run_pending_or_settled (cfg : FrameBufferConfig) (es : List FBEvent)
    (hclear : FBEvent.clearEvt ∉ es) :
    ∀ (st : FBState) (c : PendingAction), c ∈ st.pendingActions →
      c ∈ (runFB cfg st es).1.pendingActions ∨
        settlesFB (runFB cfg st es).2 c.token = true := by
  induction es with
  | nil =>
    intro st c hc
    exact Or.inl hc
  | cons e rest ih =>
    intro st c hc
    have hne : e ≠ FBEvent.clearEvt := fun h => hclear (h ▸ List.mem_cons_self e rest)
    have hrest : FBEvent.clearEvt ∉ rest := fun h => hclear (List.mem_cons_of_mem e h)
    rcases fb_step_pending_or_settled cfg st e c hc hne with h | h
    · rcases ih hrest (stepFB cfg st e).1 c h with h2 | h2
      · left
        rw [runFB_cons_eq]
        exact h2
      · right
        rw [runFB_cons_eq]
        simp only [settlesFB_append, Bool.or_eq_true]
        exact Or.inr h2
    · right
      rw [runFB_cons_eq]
      simp only [settlesFB_append, Bool.or_eq_true]
      exact Or.inl h

/-- Runs compose: processing `as ++ bs` is processing `as`, then `bs` from
the reached state, with concatenated deliveries. -/
theorem runFB_append (cfg : FrameBufferConfig) (as : List FBEvent) :
    ∀ (st : FBState) (bs : List FBEvent),
      runFB cfg st (as ++ bs) =
        ((runFB cfg (runFB cfg st as).1 bs).1,
         (runFB cfg st as).2 ++ (runFB cfg (runFB cfg st as).1 bs).2) := by
  induction as with
  | nil =>
    intro st bs
    simp [runFB]
  | cons a as ih =>
    intro st bs
    simp only [List.cons_append, runFB_cons_eq, ih, List.append_assoc]

/-- C2 counterexample: on the concrete state `fbN`, a never-completing
executor leaves `registerAction` with no settlement ever — nothing is pushed
to the pending table and no timer is armed, so even a frame arriving 2300 ms
after the call (beyond `maxWaitMs = 2000`) delivers nothing: the call does
not settle within `maxWaitMs` of being made, refuting the claim on the
code. -/
theorem registerAction_never_executor_hangs :
    registerAction fbN 7 ActionKind.left_click 5 ExecBehavior.never =
      (fbN, RegOutcome.neverSettles) ∧
    (runFB cfgB fbN [FBEvent.frame 2300 frameB]).2 = [] := by
  decide

/-- C2 (amended): how `registerAction` settles, per executor behavior.  With
a baseline frame present: a throwing executor settles the call synchronously
by rejection; a completing executor with an unsuccessful result or a
non-visual action settles it synchronously by resolution; a completing
executor on a visual action pushes a pending action and arms its `maxWaitMs`
timeout — armed only at executor completion, so the call settles within
`maxWaitMs` of the executor completing, not of being called: in every
clear-free run the armed firing (or an earlier qualifying frame) settles the
caller's token.  An executor that never completes leaves the promise
unsettled forever: no pending entry and no timer exist. -/
theorem registerAction_settlement_behavior (cfg : FrameBufferConfig)
    (st : FBState) (token : Nat) (a : ActionKind) (startTime : Nat)
    (bf : ScreencastFrame) (hb : getLatestFrame st.frames = some bf) :
    (∀ t e, (registerAction st token a startTime (ExecBehavior.throws t e)).2 =
      RegOutcome.rejected e) ∧
    (∀ t r, r.success = false →
      ∃ res, (registerAction st token a startTime (ExecBehavior.completes t r)).2 =
        RegOutcome.resolvedNow res) ∧
    (∀ t r, r.success = true → isNonVisual a = true →
      ∃ res, (registerAction st token a startTime (ExecBehavior.completes t r)).2 =
        RegOutcome.resolvedNow res) ∧
    (∀ t r, r.success = true → isNonVisual a = false →
      ∃ p : PendingAction,
        registerAction st token a startTime (ExecBehavior.completes t r) =
          ({ st with pendingActions := st.pendingActions ++ [p] },
           RegOutcome.awaiting p) ∧
        p.token = token ∧
        ∀ es1 es2 tf, FBEvent.clearEvt ∉ es1 →
          settlesFB (runFB cfg { st with pendingActions := st.pendingActions ++ [p] }
            (es1 ++ FBEvent.fire p tf :: es2)).2 token = true) ∧
    (registerAction st token a startTime ExecBehavior.never =
      (st, RegOutcome.neverSettles)) := by
  refine ⟨?_, ?_, ?_, ?_, ?_⟩
  · intro t e
    unfold registerAction
    rw [hb]
  · intro t r hr
    refine ⟨⟨a, r, some bf, none, false, t - startTime⟩, ?_⟩
    unfold registerAction
    rw [hb]
    simp [hr]
  · intro t r hr hnv
    refine ⟨⟨a, r, some bf, some bf, false, t - startTime⟩, ?_⟩
    unfold registerAction
    rw [hb]
    simp [hr, hnv]
  · intro t r hr hnv
    refine ⟨⟨token, a, bf.frameId, startTime, r, bf⟩, ?_, rfl, ?_⟩
    · unfold registerAction
      rw [hb]
      simp [hr, hnv]
    · intro es1 es2 tf hclear
      set p : PendingAction := ⟨token, a, bf.frameId, startTime, r, bf⟩ with hp
      set st1 : FBState := { st with pendingActions := st.pendingActions ++ [p] }
        with hst1
      have hmem : p ∈ st1.pendingActions := by
        rw [hst1]
        exact List.mem_append_right _ (List.mem_singleton_self p)
      rw [runFB_append]
      simp only [settlesFB_append, Bool.or_eq_true]
      rcases fb_run_pending_or_settled cfg es1 hclear st1 p hmem with h | h
      · right
        rw [runFB_cons_eq]
        simp only [settlesFB_append, Bool.or_eq_true]
        left
        show settlesFB (fireTimeout (runFB cfg st1 es1).1 p tf).2 p.token = true
        exact fire_settles (runFB cfg st1 es1).1 tf p h
      · left
        exact h
  · unfold registerAction
    rw [hb]

/-- C2 witness: a visual action on `fbN` whose executor completes at time 6
awaits a pending entry, and the run consisting of the timeout firing settles
token 7; a never-completing executor yields `neverSettles`. -/
theorem registerAction_settlement_behavior_witness :
    (∃ p : PendingAction,
      registerAction fbN 7 ActionKind.left_click 5 (ExecBehavior.completes 6 resA) =
        ({ fbN with pendingActions := fbN.pendingActions ++ [p] },
         RegOutcome.awaiting p) ∧
      p.token = 7 ∧
      ∀ es1 es2 tf, FBEvent.clearEvt ∉ es1 →
        settlesFB (runFB cfgB { fbN with pendingActions := fbN.pendingActions ++ [p] }
          (es1 ++ FBEvent.fire p tf :: es2)).2 7 = true) ∧
    (registerAction fbN 7 ActionKind.left_click 5 ExecBehavior.never =
      (fbN, RegOutcome.neverSettles)) :=
  ⟨(registerAction_settlement_behavior cfgB fbN 7 ActionKind.left_click 5 frameA
      rfl).2.2.2.1 6 resA rfl rfl,
   (registerAction_settlement_behavior cfgB fbN 7 ActionKind.left_click 5 frameA
      rfl).2.2.2.2⟩
